import Mathlib

/-!
Verification of the NUI log-collection HTTP server (src/server.js,
multi-server variant: `sanitizeName`, `writeLog`, the `/log`, `/logs` and
`/clear` handlers, and the `checkAuth` middleware).

Modelling choices, all driven by the JavaScript source:
* a JavaScript string is a list of characters (`Str`);
* a JSON field value is a `JVal`; property access on a missing key yields
  `JVal.undefined`, mirroring `undefined`; JavaScript truthiness of values is
  `truthy`;
* a JSON object (a request body, a persisted log record) is an association
  list with first-match lookup.  Under first-match lookup, appending a pair
  at the tail gives exactly the override semantics of the object spread
  `{ timestamp: ..., ...data }`: a key of `data` shadows the earlier
  `timestamp` entry;
* the log directory tree is an association list from the pair of sanitized
  path segments (server directory, resource file) to the list of records in
  the file, in write order, one record per line.  `fs.appendFileSync` is an
  append at the tail of the list, `fs.writeFileSync(p, '')` resets the list
  to `[]` while keeping the key present (the file exists but is empty), and
  a missing key is a missing file;
* `res.sendStatus(200)` is modelled as the bare `Response.ok200`;
  `res.status(s).json({error})` / `({message})` keep the status and the
  body shape, the message text being irrelevant to every claim;
* the one fallible effect inside the `/log` handler's try/catch is the
  filesystem write, so the handler is parameterised by a `writeFails` flag:
  when it is set the catch-branch answers 500.
-/

abbrev Str := List Char

/-- JSON-ish values as they occur in request bodies and log records.
Nested objects and arrays never influence the control flow of the server
(they are only carried through), so scalar carriers suffice to settle the
claims.  `undefined` is JavaScript's `undefined`, the result of reading an
absent property. -/
inductive JVal where
  | str : Str → JVal
  | num : Int → JVal
  | bool : Bool → JVal
  | null : JVal
  | undefined : JVal
deriving DecidableEq, Repr

/-- JavaScript truthiness of a `JVal`. -/
def truthy : JVal → Bool
  | .str s => !s.isEmpty
  | .num n => n != 0
  | .bool b => b
  | .null => false
  | .undefined => false

/-- `typeof v === 'string'`. -/
def isStringVal : JVal → Bool
  | .str _ => true
  | _ => false

/-- First-match lookup in an association list (JavaScript property read). -/
def lookupKey {κ α : Type} [DecidableEq κ] (l : List (κ × α)) (k : κ) : Option α :=
  (l.find? fun p => decide (p.1 = k)).map fun p => p.2

/-- `delete obj[k]` / removal of a key. -/
def removeKey {κ α : Type} [DecidableEq κ] (l : List (κ × α)) (k : κ) : List (κ × α) :=
  l.filter fun p => !decide (p.1 = k)

/-- Overwrite the binding of `k` with `v`. -/
def setKey {κ α : Type} [DecidableEq κ] (l : List (κ × α)) (k : κ) (v : α) : List (κ × α) :=
  (k, v) :: removeKey l k

/-- A JSON object: request body or persisted log record. -/
abbrev Obj := List (String × JVal)

/-- JavaScript property access: `undefined` on a missing key. -/
def jget (o : Obj) (k : String) : JVal := (lookupKey o k).getD .undefined

/-- A sanitized (server directory, resource file) pair. -/
abbrev LogKey := Str × Str

/-- The log directory tree: one entry per existing `.jsonl` file, holding
the parsed records of the file in write order. -/
abbrev Store := List (LogKey × List Obj)

instance : DecidableEq (LogKey × List Obj) := inferInstance

/-- The character class `[a-zA-Z0-9_-]`, used both by `sanitizeName`'s
replacement regex and by the resource-inference regex (the two regexes in
the source use the same class). -/
def isSafeChar (c : Char) : Bool :=
  (97 ≤ c.toNat && c.toNat ≤ 122) || (65 ≤ c.toNat && c.toNat ≤ 90) ||
    (48 ≤ c.toNat && c.toNat ≤ 57) || c == '_' || c == '-'

/-- One step of `name.replace(/[^a-zA-Z0-9_-]/g, '_')`. -/
def replaceUnsafe (c : Char) : Char := if isSafeChar c then c else '_'

/-- The fallback token for empty / non-string names. -/
def unknownName : Str := "unknown".toList

/-- `sanitizeName` (src/server.js:32-35): non-strings and falsy values
(hence also the empty string) map to `'unknown'`; otherwise every character
outside `[a-zA-Z0-9_-]` is replaced by `'_'`. -/
def sanitizeName (name : JVal) : Str :=
  match name with
  | .str s => if s.isEmpty then unknownName else s.map replaceUnsafe
  | _ => unknownName

/-- JavaScript `a || b`. -/
def jsOr (a b : JVal) : JVal := if truthy a then a else b

/-- The default for an absent/falsy `server` field (src/server.js:38). -/
def defaultServerName : JVal := JVal.str "default_server".toList

/-- `{ timestamp: new Date().toISOString(), ...data }` (src/server.js:48).
Under first-match lookup, placing the pair after `data` makes a
client-supplied `timestamp` inside `data` shadow the server one, exactly
as the spread does. -/
def mkLogEntry (now : Str) (data : Obj) : Obj :=
  data ++ [("timestamp", JVal.str now)]

/-- `writeLog(server, resource, data)` (src/server.js:37-56): sanitize the
path segments, append one serialized record to the resource's file
(creating it when absent). -/
def writeLog (st : Store) (now : Str) (server resource : JVal) (data : Obj) : Store :=
  let safeServer := sanitizeName (jsOr server defaultServerName)
  let safeResource := sanitizeName resource
  let entry := mkLogEntry now data
  let old := (lookupKey st (safeServer, safeResource)).getD []
  setKey st (safeServer, safeResource) (old ++ [entry])

-- ### The /log handler (src/server.js:61-97)

/-- `'nui_to_lua'` as a `JVal`. -/
def nuiToLuaType : JVal := JVal.str "nui_to_lua".toList

/-- `'fetch_call'` as a `JVal`. -/
def fetchCallType : JVal := JVal.str "fetch_call".toList

/-- The value of the `urlToParse` variable after the two guarded
assignments (src/server.js:70-75): `none` models the initial `null`. -/
def urlToParse (logData : Obj) : Option JVal :=
  if decide (jget logData "type" = nuiToLuaType) && truthy (jget logData "callback") then
    some (jget logData "callback")
  else if decide (jget logData "type" = fetchCallType) && isStringVal (jget logData "url") then
    some (jget logData "url")
  else none

/-- The regex `^https?:\/\/([a-zA-Z0-9_-]+)\//` (src/server.js:78): an
`http://` or `https://` scheme, then a non-empty maximal run of characters
of the class `[a-zA-Z0-9_-]` (the class contains no `/`, so the greedy `+`
stops exactly at the first character outside the class), then a `/`.
Returns the captured group. -/
def matchNuiUrl (s : Str) : Option Str :=
  let afterScheme : Option Str :=
    if ("https://".toList).isPrefixOf s then some (s.drop 8)
    else if ("http://".toList).isPrefixOf s then some (s.drop 7)
    else none
  match afterScheme with
  | none => none
  | some rest =>
      let tok := rest.takeWhile isSafeChar
      if tok.isEmpty then none
      else if decide ((rest.drop tok.length).head? = some '/') then some tok
      else none

/-- `true` exactly when the `if (urlToParse)` guard passes, i.e. the
`.match` call is reached (src/server.js:77). -/
def inferenceAttempted (logData : Obj) : Bool :=
  match urlToParse logData with
  | some v => truthy v
  | none => false

/-- The resource name recovered by the inference block, if any.  A truthy
non-string `urlToParse` value would make `.match` throw; the inner catch
swallows the exception (src/server.js:83-85), leaving the declared name in
place, hence `none`. -/
def inferredResource (logData : Obj) : Option Str :=
  match urlToParse logData with
  | none => none
  | some v =>
      if truthy v then
        match v with
        | .str s => matchNuiUrl s
        | _ => none
      else none

/-- `logData`: a copy of the body with `resource` and `server` deleted
(src/server.js:65-67). -/
def logDataOf (body : Obj) : Obj := removeKey (removeKey body "resource") "server"

/-- The final value of the `actualResource` variable: the inferred name
when the regex matched, the declared `resource` field otherwise
(src/server.js:64-82). -/
def actualResource (body : Obj) : JVal :=
  match inferredResource (logDataOf body) with
  | some tok => JVal.str tok
  | none => jget body "resource"

/-- HTTP responses, restricted to the shapes the server produces: a bare
200 (`res.sendStatus(200)`), a `{error}` JSON body with a status, a
`{message}` JSON body with a status, a JSON array of names, a JSON array
of records, or a redirect. -/
inductive Response where
  | ok200
  | errorObj (status : Nat)
  | messageObj (status : Nat)
  | namesArr (names : List Str)
  | logsArr (logs : List Obj)
  | redirect (loc : String)
deriving DecidableEq, Repr

/-- The `POST /log` handler (src/server.js:61-97).  `writeFails` models
`fs.appendFileSync` (or `mkdirSync`) throwing, the only fallible step of
the outer try block; the catch answers `500 {error}`. -/
def postLog (st : Store) (now : Str) (writeFails : Bool) (body : Obj) : Response × Store :=
  let actual := actualResource body
  if !truthy actual then (.errorObj 400, st)
  else if writeFails then (.errorObj 500, st)
  else (.ok200, writeLog st now (jget body "server") actual (logDataOf body))

/-- The (server dir, resource file) key a successful `POST /log` writes
to, as computed inside `writeLog`. -/
def postKey (body : Obj) : LogKey :=
  (sanitizeName (jsOr (jget body "server") defaultServerName),
    sanitizeName (actualResource body))

-- ### The /logs handler (src/server.js:100-142)

/-- `.slice(-200)`: the last 200 elements. -/
def last200 (l : List Obj) : List Obj := l.drop (l.length - 200)

/-- Truthiness of a query-string parameter (`undefined` or a string). -/
def qTruthy : Option Str → Bool
  | some s => !s.isEmpty
  | none => false

/-- A query parameter as a `JVal` (absent parameters read as `undefined`). -/
def qVal : Option Str → JVal
  | some s => .str s
  | none => .undefined

/-- The file key the tail branch reads: both query parameters are run
through `sanitizeName` (src/server.js:106-108). -/
def qKey (server resource : Option Str) : LogKey :=
  (sanitizeName (qVal server), sanitizeName (qVal resource))

/-- Case 2 of the handler: the `.jsonl` files under the server's
directory (src/server.js:117-129).  In the store model a file exists under
a server exactly when its key is present. -/
def listResources (st : Store) (safeServer : Str) : List Str :=
  (st.filter fun kv => decide (kv.1.1 = safeServer)).map fun kv => kv.1.2

/-- Case 3 of the handler: the subdirectories of the log root
(src/server.js:131-137). -/
def listServers (st : Store) : List Str := st.map fun kv => kv.1.1

/-- The `GET /logs` handler body, after `checkAuth` (src/server.js:100-142).
With both parameters truthy it tails the resource's file, a missing file
giving `[]`; with only `server` truthy it lists that server's resources;
otherwise it lists the servers. -/
def getLogsHandler (st : Store) (server resource : Option Str) : Response :=
  if qTruthy server && qTruthy resource then
    match lookupKey st (qKey server resource) with
    | none => .logsArr []
    | some entries => .logsArr (last200 entries)
  else if qTruthy server then
    .namesArr (listResources st (sanitizeName (qVal server)))
  else
    .namesArr (listServers st)

-- ### Authentication and the gated routes (src/server.js:24-29)

/-- The configured shared secret (`VIEWER_PIN`, src/server.js:10). -/
def viewerPin : Str := "280824".toList

/-- `checkAuth`: strict equality of the auth cookie against the PIN; an
absent cookie (`undefined`) never equals a string (src/server.js:24-29). -/
def checkAuth (cookie : Option Str) : Bool := decide (cookie = some viewerPin)

/-- `GET /logs` including the `checkAuth` middleware. -/
def getLogsRoute (cookie : Option Str) (st : Store) (server resource : Option Str) :
    Response :=
  if checkAuth cookie then getLogsHandler st server resource else .redirect "/login"

-- ### The /clear handler (src/server.js:145-165)

/-- The file key `POST /clear` operates on (src/server.js:151-153). -/
def clearKey (body : Obj) : LogKey :=
  (sanitizeName (jget body "server"), sanitizeName (jget body "resource"))

/-- The `POST /clear` handler body, after `checkAuth`: 400 when `server`
or `resource` is falsy, then 200 with truncation when the file exists, 404
otherwise (src/server.js:145-165). -/
def postClear (st : Store) (body : Obj) : Response × Store :=
  if !truthy (jget body "server") then (.errorObj 400, st)
  else if !truthy (jget body "resource") then (.errorObj 400, st)
  else
    match lookupKey st (clearKey body) with
    | some _ => (.messageObj 200, setKey st (clearKey body) [])
    | none => (.messageObj 404, st)

/-- `POST /clear` including the `checkAuth` middleware. -/
def postClearRoute (cookie : Option Str) (st : Store) (body : Obj) : Response × Store :=
  if checkAuth cookie then postClear st body else (.redirect "/login", st)

/-- No record in the store carries a top-level `resource` or `server`
field. -/
def cleanStore (st : Store) : Bool :=
  st.all fun kv => kv.2.all fun e =>
    (lookupKey e "resource").isNone && (lookupKey e "server").isNone

-- ### Basic lemmas about the association-list operations

theorem isSafeChar_replaceUnsafe (c : Char) : isSafeChar (replaceUnsafe c) = true := by
  by_cases h : isSafeChar c
  · simp [replaceUnsafe, h]
  · simp [replaceUnsafe, h]
    decide

theorem replaceUnsafe_of_safe (c : Char) (h : isSafeChar c = true) : replaceUnsafe c = c := by
  simp [replaceUnsafe, h]

theorem sanitizeName_ne_nil (v : JVal) : sanitizeName v ≠ [] := by
  cases v with
  | str s =>
    cases s with
    | nil => simp [sanitizeName, unknownName]
    | cons a t => simp [sanitizeName]
  | num n => simp [sanitizeName, unknownName]
  | bool b => simp [sanitizeName, unknownName]
  | null => simp [sanitizeName, unknownName]
  | undefined => simp [sanitizeName, unknownName]

theorem unknownName_safe : ∀ c ∈ unknownName, isSafeChar c = true := by decide

theorem sanitizeName_safe (v : JVal) : ∀ c ∈ sanitizeName v, isSafeChar c = true := by
  cases v with
  | str s =>
    cases s with
    | nil => simpa [sanitizeName, unknownName] using unknownName_safe
    | cons a t =>
      intro c hc
      have hrw : sanitizeName (JVal.str (a :: t)) = (a :: t).map replaceUnsafe := by
        simp [sanitizeName]
      rw [hrw] at hc
      rcases List.mem_map.mp hc with ⟨d, _, rfl⟩
      exact isSafeChar_replaceUnsafe d
  | num n => simpa [sanitizeName, unknownName] using unknownName_safe
  | bool b => simpa [sanitizeName, unknownName] using unknownName_safe
  | null => simpa [sanitizeName, unknownName] using unknownName_safe
  | undefined => simpa [sanitizeName, unknownName] using unknownName_safe

theorem sanitizeName_fixed (s : Str) (h1 : s ≠ [])
    (h2 : ∀ c ∈ s, isSafeChar c = true) : sanitizeName (JVal.str s) = s := by
  have hne : s.isEmpty = false := by
    cases s with
    | nil => exact absurd rfl h1
    | cons a t => rfl
  simp only [sanitizeName, hne, Bool.false_eq_true, if_false]
  calc s.map replaceUnsafe = s.map id := by
        apply List.map_congr_left
        intro c hc
        exact replaceUnsafe_of_safe c (h2 c hc)
    _ = s := List.map_id s

theorem sanitizeName_idem (v : JVal) :
    sanitizeName (JVal.str (sanitizeName v)) = sanitizeName v :=
  sanitizeName_fixed _ (sanitizeName_ne_nil v) (sanitizeName_safe v)

theorem lookupKey_cons_ne {κ α : Type} [DecidableEq κ] (a : κ × α) (t : List (κ × α))
    (k : κ) (h : a.1 ≠ k) : lookupKey (a :: t) k = lookupKey t k := by
  unfold lookupKey
  rw [List.find?_cons_of_neg _ (by simpa using h)]

theorem lookupKey_cons_self {κ α : Type} [DecidableEq κ] (a : κ × α) (t : List (κ × α))
    (k : κ) (h : a.1 = k) : lookupKey (a :: t) k = some a.2 := by
  unfold lookupKey
  rw [List.find?_cons_of_pos _ (by simpa using h)]
  rfl

theorem find?_key_filter {κ α : Type} [DecidableEq κ] (l : List (κ × α)) (k k' : κ)
    (h : k' ≠ k) :
    (l.filter fun p => !decide (p.1 = k)).find? (fun p => decide (p.1 = k')) =
      l.find? (fun p => decide (p.1 = k')) := by
  induction l with
  | nil => rfl
  | cons a t ih =>
    by_cases ha : a.1 = k
    · have hk' : ¬ a.1 = k' := fun hh => h (hh ▸ ha)
      rw [List.filter_cons, if_neg (by simp [ha])]
      rw [List.find?_cons_of_neg _ (by simpa using hk')]
      exact ih
    · rw [List.filter_cons, if_pos (by simp [ha])]
      by_cases hk' : a.1 = k'
      · rw [List.find?_cons_of_pos _ (by simpa using hk'),
          List.find?_cons_of_pos _ (by simpa using hk')]
      · rw [List.find?_cons_of_neg _ (by simpa using hk'),
          List.find?_cons_of_neg _ (by simpa using hk')]
        exact ih

theorem lookupKey_removeKey_ne {κ α : Type} [DecidableEq κ] (l : List (κ × α)) (k k' : κ)
    (h : k' ≠ k) : lookupKey (removeKey l k) k' = lookupKey l k' := by
  unfold lookupKey removeKey
  rw [find?_key_filter l k k' h]

theorem lookupKey_removeKey_self {κ α : Type} [DecidableEq κ] (l : List (κ × α)) (k : κ) :
    lookupKey (removeKey l k) k = none := by
  unfold lookupKey removeKey
  rw [List.find?_eq_none.mpr]
  · rfl
  · intro p hp
    have := (List.mem_filter.mp hp).2
    simpa using this

theorem lookupKey_setKey_self {κ α : Type} [DecidableEq κ] (l : List (κ × α)) (k : κ) (v : α) :
    lookupKey (setKey l k v) k = some v := by
  rw [setKey, lookupKey_cons_self _ _ _ rfl]

theorem lookupKey_setKey_ne {κ α : Type} [DecidableEq κ] (l : List (κ × α)) (k k' : κ) (v : α)
    (h : k' ≠ k) : lookupKey (setKey l k v) k' = lookupKey l k' := by
  rw [setKey, lookupKey_cons_ne _ _ _ (fun hh => h hh.symm),
    lookupKey_removeKey_ne l k k' h]

theorem lookupKey_append_left {κ α : Type} [DecidableEq κ] (l₁ l₂ : List (κ × α)) (k : κ)
    (v : α) (h : lookupKey l₁ k = some v) : lookupKey (l₁ ++ l₂) k = some v := by
  unfold lookupKey at h ⊢
  rcases ho : l₁.find? (fun p => decide (p.1 = k)) with _ | p
  · rw [ho] at h; exact absurd h (by simp)
  · rw [List.find?_append, ho]
    rw [ho] at h
    simpa using h

theorem lookupKey_append_right {κ α : Type} [DecidableEq κ] (l₁ l₂ : List (κ × α)) (k : κ)
    (h : lookupKey l₁ k = none) : lookupKey (l₁ ++ l₂) k = lookupKey l₂ k := by
  unfold lookupKey at h ⊢
  rcases ho : l₁.find? (fun p => decide (p.1 = k)) with _ | p
  · rw [List.find?_append, ho]
    rfl
  · rw [ho] at h
    exact absurd h (by simp)

theorem lookupKey_singleton_ne {κ α : Type} [DecidableEq κ] (k k' : κ) (v : α)
    (h : k' ≠ k) : lookupKey [(k, v)] k' = none := by
  rw [lookupKey_cons_ne _ _ _ (fun hh => h hh.symm)]
  rfl

theorem mkLogEntry_lookup_ne (now : Str) (data : Obj) (k : String) (h : k ≠ "timestamp") :
    lookupKey (mkLogEntry now data) k = lookupKey data k := by
  unfold mkLogEntry
  cases hl : lookupKey data k with
  | none => rw [lookupKey_append_right _ _ _ hl, lookupKey_singleton_ne _ _ _ h]
  | some v => rw [lookupKey_append_left _ _ _ _ hl]

theorem mkLogEntry_timestamp (now : Str) (data : Obj)
    (h : lookupKey data "timestamp" = none) :
    lookupKey (mkLogEntry now data) "timestamp" = some (JVal.str now) := by
  unfold mkLogEntry
  rw [lookupKey_append_right _ _ _ h, lookupKey_cons_self _ _ _ rfl]

theorem logDataOf_resource (body : Obj) : lookupKey (logDataOf body) "resource" = none := by
  unfold logDataOf
  rw [lookupKey_removeKey_ne _ _ _ (by decide), lookupKey_removeKey_self]

theorem logDataOf_server (body : Obj) : lookupKey (logDataOf body) "server" = none := by
  unfold logDataOf
  rw [lookupKey_removeKey_self]

theorem logDataOf_other (body : Obj) (k : String) (h1 : k ≠ "resource") (h2 : k ≠ "server") :
    lookupKey (logDataOf body) k = lookupKey body k := by
  unfold logDataOf
  rw [lookupKey_removeKey_ne _ _ _ h2, lookupKey_removeKey_ne _ _ _ h1]

theorem last200_length_le (l : List Obj) : (last200 l).length ≤ 200 := by
  simp only [last200, List.length_drop]
  omega

theorem last200_suffix (l : List Obj) : ∃ p, l = p ++ last200 l :=
  ⟨l.take (l.length - 200), (List.take_append_drop _ l).symm⟩

theorem last200_concat_getLast? (xs : List Obj) (e : Obj) :
    (last200 (xs ++ [e])).getLast? = some e := by
  unfold last200
  have hn : (xs ++ [e]).length - 200 ≤ xs.length := by
    simp only [List.length_append, List.length_singleton]
    omega
  rw [List.drop_append_eq_append_drop, Nat.sub_eq_zero_of_le hn, List.drop_zero]
  exact List.getLast?_concat _

theorem qTruthy_of_ne_nil (s : Str) (h : s ≠ []) : qTruthy (some s) = true := by
  cases s with
  | nil => exact absurd rfl h
  | cons a t => rfl

theorem getLogsHandler_tail (st : Store) (server resource : Option Str)
    (hs : qTruthy server = true) (hr : qTruthy resource = true) :
    getLogsHandler st server resource =
      Response.logsArr (last200 ((lookupKey st (qKey server resource)).getD [])) := by
  unfold getLogsHandler
  rw [if_pos (by simp [hs, hr])]
  cases hl : lookupKey st (qKey server resource) with
  | none => simp [hl, last200]
  | some entries => simp [hl]

theorem getLogsHandler_ne_redirect (st : Store) (server resource : Option Str)
    (loc : String) : getLogsHandler st server resource ≠ Response.redirect loc := by
  unfold getLogsHandler
  split
  · split <;> simp
  · split <;> simp

-- ### C2: sanitize is a character-wise, length-preserving replacement

/-- C2 counterexample: the empty string is a string, yet `sanitizeName`
maps it to the 7-character fallback `'unknown'`, so the output length is
not the input length. -/
theorem sanitizeName_length_cex :
    (sanitizeName (JVal.str ([] : Str))).length ≠ ([] : Str).length := by decide

/-- C2 (amended): for every NON-EMPTY string `s`, `sanitizeName` returns a
string of the same length over `[A-Za-z0-9_-]`, each character outside the
class replaced by `'_'` at its original position.  (The empty string falls
into the `'unknown'` fallback together with non-string inputs.) -/
theorem sanitizeName_charwise (s : Str) (h : s ≠ []) :
    (sanitizeName (JVal.str s)).length = s.length
  ∧ (∀ c ∈ sanitizeName (JVal.str s), isSafeChar c = true)
  ∧ ∀ i : Nat, (sanitizeName (JVal.str s))[i]? =
      (s[i]?).map fun c => if isSafeChar c then c else '_' := by
  have hne : s.isEmpty = false := by
    cases s with
    | nil => exact absurd rfl h
    | cons a t => rfl
  have hrw : sanitizeName (JVal.str s) = s.map replaceUnsafe := by
    simp [sanitizeName, hne]
  refine ⟨?_, sanitizeName_safe _, ?_⟩
  · rw [hrw, List.length_map]
  · intro i
    rw [hrw, List.getElem?_map]
    rfl

theorem sanitizeName_charwise_witness :
    (("ab!".toList : Str) ≠ [])
  ∧ ((sanitizeName (JVal.str "ab!".toList)).length = ("ab!".toList : Str).length
      ∧ (∀ c ∈ sanitizeName (JVal.str "ab!".toList), isSafeChar c = true)
      ∧ ∀ i : Nat, (sanitizeName (JVal.str "ab!".toList))[i]? =
          (("ab!".toList : Str)[i]?).map fun c => if isSafeChar c then c else '_') :=
  ⟨by decide, sanitizeName_charwise "ab!".toList (by decide)⟩

-- ### C10: sanitize is idempotent

/-- C10: `sanitizeName` is idempotent, because its output is always a
non-empty string over `[A-Za-z0-9_-]`, which `sanitizeName` maps to
itself. -/
theorem sanitizeName_idempotent (x : JVal) :
    sanitizeName x ≠ []
  ∧ (∀ c ∈ sanitizeName x, isSafeChar c = true)
  ∧ sanitizeName (JVal.str (sanitizeName x)) = sanitizeName x :=
  ⟨sanitizeName_ne_nil x, sanitizeName_safe x, sanitizeName_idem x⟩

-- ### C8: /logs is gated by exact cookie equality

/-- C8: a `GET /logs` request is redirected to `/login` exactly when its
auth cookie differs from the configured PIN (including an absent cookie);
only exact equality reaches the log-reading handler, so no log data is
ever returned to an unauthenticated request. -/
theorem logsRoute_auth_gate (cookie : Option Str) (st : Store)
    (server resource : Option Str) :
    (getLogsRoute cookie st server resource = Response.redirect "/login" ↔
        cookie ≠ some viewerPin)
  ∧ (getLogsRoute cookie st server resource = getLogsHandler st server resource ↔
        cookie = some viewerPin) := by
  constructor
  · constructor
    · intro hred hc
      rw [getLogsRoute, if_pos (by simp [checkAuth, hc])] at hred
      exact getLogsHandler_ne_redirect st server resource _ hred
    · intro hne
      rw [getLogsRoute, if_neg (by simp [checkAuth, hne])]
  · constructor
    · intro heq
      by_contra hne
      rw [getLogsRoute, if_neg (by simp [checkAuth, hne])] at heq
      exact getLogsHandler_ne_redirect st server resource _ heq.symm
    · intro hc
      rw [getLogsRoute, if_pos (by simp [checkAuth, hc])]

-- ### C3: resource inference

theorem inferenceAttempted_iff (ld : Obj) :
    inferenceAttempted ld = true ↔
      (jget ld "type" = nuiToLuaType ∧ truthy (jget ld "callback") = true)
    ∨ (jget ld "type" = fetchCallType ∧ isStringVal (jget ld "url") = true
        ∧ truthy (jget ld "url") = true) := by
  unfold inferenceAttempted urlToParse
  have hnf : ¬ nuiToLuaType = fetchCallType := by decide
  have hfn : ¬ fetchCallType = nuiToLuaType := by decide
  by_cases h1 : jget ld "type" = nuiToLuaType
  · by_cases h2 : truthy (jget ld "callback") = true
    · simp [h1, h2]
    · simp [h1, h2, hnf]
  · by_cases h3 : jget ld "type" = fetchCallType
    · by_cases h4 : isStringVal (jget ld "url") = true
      · simp [h1, h3, h4, hfn]
      · simp [h1, h3, h4, hfn]
    · simp [h1, h3]

theorem matchNuiUrl_token {rest tok : Str}
    (h : (if (rest.takeWhile isSafeChar).isEmpty then none
          else if decide ((rest.drop (rest.takeWhile isSafeChar).length).head? = some '/')
          then some (rest.takeWhile isSafeChar) else none) = some tok) :
    tok ≠ [] ∧ ∀ c ∈ tok, isSafeChar c = true := by
  by_cases he : (rest.takeWhile isSafeChar).isEmpty
  · simp [he] at h
  · by_cases hs : (rest.drop (rest.takeWhile isSafeChar).length).head? = some '/'
    · rw [if_neg he, if_pos (by simp [hs])] at h
      have htok : rest.takeWhile isSafeChar = tok := by
        simpa using h
      constructor
      · intro hnil
        rw [htok, hnil] at he
        exact he rfl
      · intro c hc
        rw [← htok] at hc
        exact List.mem_takeWhile_imp hc
    · rw [if_neg he, if_neg (by simpa using hs)] at h
      exact absurd h (by simp)

theorem matchNuiUrl_props (s tok : Str) (h : matchNuiUrl s = some tok) :
    tok ≠ [] ∧ ∀ c ∈ tok, isSafeChar c = true := by
  unfold matchNuiUrl at h
  by_cases h1 : ("https://".toList).isPrefixOf s
  · rw [if_pos h1] at h
    exact matchNuiUrl_token h
  · by_cases h2 : ("http://".toList).isPrefixOf s
    · rw [if_neg (by simpa using h1), if_pos h2] at h
      exact matchNuiUrl_token h
    · rw [if_neg (by simpa using h1), if_neg (by simpa using h2)] at h
      exact absurd h (by simp)

theorem inferredResource_props (ld : Obj) (tok : Str)
    (h : inferredResource ld = some tok) : tok ≠ [] ∧ ∀ c ∈ tok, isSafeChar c = true := by
  unfold inferredResource at h
  cases hu : urlToParse ld with
  | none => rw [hu] at h; exact absurd h (by simp)
  | some v =>
    rw [hu] at h
    dsimp only at h
    by_cases ht : truthy v = true
    · rw [if_pos ht] at h
      cases v with
      | str s => exact matchNuiUrl_props s tok h
      | num n => exact absurd h (by simp)
      | bool b => exact absurd h (by simp)
      | null => exact absurd h (by simp)
      | undefined => exact absurd h (by simp)
    · rw [if_neg ht] at h
      exact absurd h (by simp)

theorem urlToParse_none_of_other_type (ld : Obj)
    (h1 : jget ld "type" ≠ nuiToLuaType) (h2 : jget ld "type" ≠ fetchCallType) :
    urlToParse ld = none := by
  unfold urlToParse
  rw [if_neg (by simp [h1]), if_neg (by simp [h2])]

def c3CexData : Obj := [("type", JVal.str "nui_to_lua".toList), ("callback", JVal.str [])]

/-- C3 counterexample: a record of type `nui_to_lua` with a `callback`
field present (the empty string, a string value) — the claim says
inference is attempted, but the code's truthiness guard on
`logData.callback` skips the whole inference block. -/
theorem inferenceAttempted_cex :
    jget c3CexData "type" = nuiToLuaType
  ∧ (lookupKey c3CexData "callback").isSome = true
  ∧ isStringVal (jget c3CexData "callback") = true
  ∧ inferenceAttempted c3CexData = false := by decide

/-- C3 (amended): inference is attempted exactly when the type is
`"nui_to_lua"` with a TRUTHY (hence non-empty, if a string) callback, or
`"fetch_call"` with a NON-EMPTY string url; when the url-like field
matches `^https?://<token>/` with token in `[A-Za-z0-9_-]+`, the captured
token becomes the stored resource name (it is already sanitizer-safe, so
it is stored verbatim), overriding any client-declared `resource` field;
for any other type the declared resource value is used unchanged. -/
theorem inference_behaviour (body : Obj) (tok : Str) :
    (inferenceAttempted (logDataOf body) = true ↔
        (jget (logDataOf body) "type" = nuiToLuaType
          ∧ truthy (jget (logDataOf body) "callback") = true)
      ∨ (jget (logDataOf body) "type" = fetchCallType
          ∧ isStringVal (jget (logDataOf body) "url") = true
          ∧ truthy (jget (logDataOf body) "url") = true))
  ∧ (inferredResource (logDataOf body) = some tok →
      actualResource body = JVal.str tok ∧ sanitizeName (actualResource body) = tok)
  ∧ (jget (logDataOf body) "type" ≠ nuiToLuaType →
      jget (logDataOf body) "type" ≠ fetchCallType →
        actualResource body = jget body "resource") := by
  refine ⟨inferenceAttempted_iff _, ?_, ?_⟩
  · intro h
    have hact : actualResource body = JVal.str tok := by
      unfold actualResource
      rw [h]
    refine ⟨hact, ?_⟩
    rw [hact]
    obtain ⟨hne, hsafe⟩ := inferredResource_props _ _ h
    exact sanitizeName_fixed tok hne hsafe
  · intro h1 h2
    unfold actualResource inferredResource
    rw [urlToParse_none_of_other_type _ h1 h2]

theorem inference_behaviour_witness :
    inferredResource (logDataOf
        [("resource", JVal.str "declared".toList),
         ("type", JVal.str "fetch_call".toList),
         ("url", JVal.str "https://myresource/api/ping".toList)]) =
      some "myresource".toList
  ∧ actualResource
        [("resource", JVal.str "declared".toList),
         ("type", JVal.str "fetch_call".toList),
         ("url", JVal.str "https://myresource/api/ping".toList)] =
      JVal.str "myresource".toList
  ∧ sanitizeName (actualResource
        [("resource", JVal.str "declared".toList),
         ("type", JVal.str "fetch_call".toList),
         ("url", JVal.str "https://myresource/api/ping".toList)]) =
      "myresource".toList :=
  ⟨by decide,
    ((inference_behaviour _ "myresource".toList).2.1 (by decide)).1,
    ((inference_behaviour _ "myresource".toList).2.1 (by decide)).2⟩

-- ### C4: /log response statuses

def c4CexBody : Obj :=
  [("type", JVal.str "fetch_call".toList),
   ("url", JVal.str "https://myresource/api/ping".toList)]

/-- C4 counterexample: the request body carries no `resource` field at
all, yet `POST /log` answers 200, because inference recovered
`myresource` from the url; the claim's "400 if the resource is missing
from the request" fails. -/
theorem postLog_missing_resource_cex :
    lookupKey c4CexBody "resource" = none
  ∧ (postLog [] "2024-01-01T00:00:00.000Z".toList false c4CexBody).1 =
      Response.ok200 := by decide

/-- C4 (amended): `POST /log` answers 400 `{error}` exactly when the
EFFECTIVE resource — the declared field after the inference override — is
falsy (absent, empty, or otherwise falsy); with a truthy effective
resource it answers a bare 200 when the write succeeds and 500 `{error}`
when the write throws. -/
theorem postLog_status (st : Store) (now : Str) (writeFails : Bool) (body : Obj) :
    (truthy (actualResource body) = false →
        postLog st now writeFails body = (Response.errorObj 400, st))
  ∧ (truthy (actualResource body) = true → writeFails = false →
        (postLog st now writeFails body).1 = Response.ok200)
  ∧ (truthy (actualResource body) = true → writeFails = true →
        postLog st now writeFails body = (Response.errorObj 500, st)) := by
  refine ⟨?_, ?_, ?_⟩
  · intro h
    simp [postLog, h]
  · intro h hw
    simp [postLog, h, hw]
  · intro h hw
    simp [postLog, h, hw]

theorem postLog_status_witness :
    truthy (actualResource
        [("resource", JVal.str "abc".toList), ("type", JVal.str "console".toList)]) = true
  ∧ (postLog [] "T0".toList false
        [("resource", JVal.str "abc".toList), ("type", JVal.str "console".toList)]).1 =
      Response.ok200 :=
  ⟨by decide,
    (postLog_status [] "T0".toList false
        [("resource", JVal.str "abc".toList), ("type", JVal.str "console".toList)]).2.1
      (by decide) rfl⟩

-- ### C7: /clear response statuses

def c7CexStore : Store := [(("srv".toList, "unknown".toList), [[]])]

def c7CexBody : Obj := [("server", JVal.str "srv".toList), ("resource", JVal.str [])]

/-- C7 counterexample: `resource` is present in the body (the empty
string) and the file for the sanitized key exists, so under the claim the
request is not a 400 case and the file would be truncated with a 200
`{message}`; the code instead answers 400 `{error}` (empty string is
falsy) and truncates nothing. -/
theorem postClear_empty_resource_cex :
    (lookupKey c7CexBody "resource").isSome = true
  ∧ (lookupKey c7CexStore (clearKey c7CexBody)).isSome = true
  ∧ postClearRoute (some viewerPin) c7CexStore c7CexBody =
      (Response.errorObj 400, c7CexStore) := by decide

/-- C7 (amended): for an authenticated request, `POST /clear` answers 400
`{error}` when `server` or `resource` is FALSY (absent, empty, or
otherwise falsy); with both truthy it answers 404 `{message}` when no log
file exists for the sanitized key (distinguishable from success) and 200
`{message}` after truncating an existing file to zero records. -/
theorem postClear_status (cookie : Option Str) (st : Store) (body : Obj)
    (hauth : checkAuth cookie = true) :
    ((truthy (jget body "server") = false ∨ truthy (jget body "resource") = false) →
        postClearRoute cookie st body = (Response.errorObj 400, st))
  ∧ (truthy (jget body "server") = true → truthy (jget body "resource") = true →
      lookupKey st (clearKey body) = none →
        postClearRoute cookie st body = (Response.messageObj 404, st))
  ∧ (truthy (jget body "server") = true → truthy (jget body "resource") = true →
      ∀ entries, lookupKey st (clearKey body) = some entries →
        postClearRoute cookie st body =
            (Response.messageObj 200, setKey st (clearKey body) [])
          ∧ lookupKey (postClearRoute cookie st body).2 (clearKey body) = some []) := by
  have hroute : postClearRoute cookie st body = postClear st body := by
    rw [postClearRoute, if_pos hauth]
  refine ⟨?_, ?_, ?_⟩
  · intro h
    rw [hroute]
    rcases h with h | h
    · simp [postClear, h]
    · by_cases hsv : truthy (jget body "server") = true
      · simp [postClear, hsv, h]
      · simp [postClear, Bool.eq_false_iff.mpr hsv]
  · intro hs hr hn
    rw [hroute]
    simp [postClear, hs, hr, hn]
  · intro hs hr entries he
    rw [hroute]
    refine ⟨by simp [postClear, hs, hr, he], ?_⟩
    have : (postClear st body).2 = setKey st (clearKey body) [] := by
      simp [postClear, hs, hr, he]
    rw [this, lookupKey_setKey_self]

theorem postClear_status_witness :
    checkAuth (some viewerPin) = true
  ∧ truthy (jget [("server", JVal.str "a".toList), ("resource", JVal.str "b".toList)]
        "server") = true
  ∧ truthy (jget [("server", JVal.str "a".toList), ("resource", JVal.str "b".toList)]
        "resource") = true
  ∧ lookupKey [(("a".toList, "b".toList), [([] : Obj)])]
      (clearKey [("server", JVal.str "a".toList), ("resource", JVal.str "b".toList)]) =
        some [([] : Obj)]
  ∧ (postClearRoute (some viewerPin) [(("a".toList, "b".toList), [([] : Obj)])]
        [("server", JVal.str "a".toList), ("resource", JVal.str "b".toList)] =
          (Response.messageObj 200,
            setKey [(("a".toList, "b".toList), [([] : Obj)])]
              (clearKey [("server", JVal.str "a".toList),
                ("resource", JVal.str "b".toList)]) [])
      ∧ lookupKey (postClearRoute (some viewerPin)
            [(("a".toList, "b".toList), [([] : Obj)])]
            [("server", JVal.str "a".toList), ("resource", JVal.str "b".toList)]).2
          (clearKey [("server", JVal.str "a".toList),
            ("resource", JVal.str "b".toList)]) = some []) :=
  ⟨by decide, by decide, by decide, by decide,
    (postClear_status (some viewerPin) [(("a".toList, "b".toList), [([] : Obj)])]
        [("server", JVal.str "a".toList), ("resource", JVal.str "b".toList)]
        (by decide)).2.2 (by decide) (by decide) [([] : Obj)] (by decide)⟩

-- ### C9: persisted records never carry the routing fields

theorem writeLog_clean (st : Store) (now : Str) (server resource : JVal) (data : Obj)
    (hst : cleanStore st = true)
    (hres : lookupKey data "resource" = none)
    (hser : lookupKey data "server" = none) :
    cleanStore (writeLog st now server resource data) = true := by
  unfold writeLog
  set key : LogKey :=
    (sanitizeName (jsOr server defaultServerName), sanitizeName resource) with hkeydef
  have hentry : (lookupKey (mkLogEntry now data) "resource").isNone = true
      ∧ (lookupKey (mkLogEntry now data) "server").isNone = true := by
    constructor
    · rw [mkLogEntry_lookup_ne _ _ _ (by decide), hres]
      rfl
    · rw [mkLogEntry_lookup_ne _ _ _ (by decide), hser]
      rfl
  have hold : ((lookupKey st key).getD []).all
      (fun e => (lookupKey e "resource").isNone && (lookupKey e "server").isNone) = true := by
    cases hl : lookupKey st key with
    | none => rfl
    | some entries =>
      have hmem : ∃ kv ∈ st, kv.2 = entries := by
        unfold lookupKey at hl
        cases hf : st.find? (fun p => decide (p.1 = key)) with
        | none => rw [hf] at hl; exact absurd hl (by simp)
        | some p =>
          rw [hf] at hl
          refine ⟨p, List.mem_of_find?_eq_some hf, ?_⟩
          simpa using hl
      rcases hmem with ⟨kv, hm, hkv⟩
      rw [Option.getD_some, ← hkv]
      unfold cleanStore at hst
      rw [List.all_eq_true] at hst
      exact hst kv hm
  have htail : (removeKey st key).all
      (fun kv => kv.2.all fun e =>
        (lookupKey e "resource").isNone && (lookupKey e "server").isNone) = true := by
    rw [List.all_eq_true]
    intro kv hm
    unfold cleanStore at hst
    rw [List.all_eq_true] at hst
    exact hst kv (List.mem_of_mem_filter hm)
  unfold cleanStore setKey
  rw [List.all_cons]
  simp only [Bool.and_eq_true]
  refine ⟨?_, htail⟩
  rw [List.all_append]
  simp only [Bool.and_eq_true]
  refine ⟨hold, ?_⟩
  simp [hentry.1, hentry.2]

/-- C9: every record persisted via `POST /log` lacks top-level `resource`
and `server` fields — both are deleted from the payload before
serialization, so a store in which no record carries them keeps that
invariant across any `POST /log`. -/
theorem postLog_clean (st : Store) (now : Str) (writeFails : Bool) (body : Obj)
    (h : cleanStore st = true) :
    cleanStore (postLog st now writeFails body).2 = true := by
  by_cases ha : truthy (actualResource body) = true
  · by_cases hw : writeFails = true
    · simpa [postLog, ha, hw] using h
    · have hw' : writeFails = false := by simpa using hw
      have hred : (postLog st now writeFails body).2 =
          writeLog st now (jget body "server") (actualResource body) (logDataOf body) := by
        simp [postLog, ha, hw']
      rw [hred]
      exact writeLog_clean st now _ _ _ h (logDataOf_resource body) (logDataOf_server body)
  · have ha' : truthy (actualResource body) = false := by simpa using ha
    simpa [postLog, ha'] using h

theorem postLog_clean_witness :
    cleanStore [] = true
  ∧ cleanStore (postLog [] "T1".toList false
      [("resource", JVal.str "r1".toList), ("type", JVal.str "console".toList)]).2 = true :=
  ⟨by decide,
    postLog_clean [] "T1".toList false
      [("resource", JVal.str "r1".toList), ("type", JVal.str "console".toList)] (by decide)⟩

-- ### C5: the tail read is bounded, ordered, and total

/-- C5: for an authenticated tail request, the response is a JSON array of
at most 200 records that is a suffix of the stored records (original write
order, oldest of the returned tail first), and a missing log file yields
the empty array rather than an error. -/
theorem tail_bounded (cookie : Option Str) (st : Store) (server resource : Option Str)
    (hauth : checkAuth cookie = true)
    (hs : qTruthy server = true) (hr : qTruthy resource = true) :
    ∃ l, getLogsRoute cookie st server resource = Response.logsArr l
      ∧ l.length ≤ 200
      ∧ (∀ entries, lookupKey st (qKey server resource) = some entries →
          ∃ p, entries = p ++ l)
      ∧ (lookupKey st (qKey server resource) = none → l = []) := by
  refine ⟨last200 ((lookupKey st (qKey server resource)).getD []), ?_,
    last200_length_le _, ?_, ?_⟩
  · rw [getLogsRoute, if_pos hauth]
    exact getLogsHandler_tail st server resource hs hr
  · intro entries he
    rw [he, Option.getD_some]
    exact last200_suffix entries
  · intro he
    rw [he]
    rfl

theorem tail_bounded_witness :
    (checkAuth (some viewerPin) = true ∧ qTruthy (some "a".toList) = true
      ∧ qTruthy (some "b".toList) = true)
  ∧ (∃ l, getLogsRoute (some viewerPin) [] (some "a".toList) (some "b".toList) =
        Response.logsArr l
      ∧ l.length ≤ 200
      ∧ (∀ entries, lookupKey ([] : Store) (qKey (some "a".toList) (some "b".toList)) =
            some entries → ∃ p, entries = p ++ l)
      ∧ (lookupKey ([] : Store) (qKey (some "a".toList) (some "b".toList)) = none →
            l = [])) :=
  ⟨⟨by decide, by decide, by decide⟩,
    tail_bounded (some viewerPin) [] (some "a".toList) (some "b".toList)
      (by decide) (by decide) (by decide)⟩

-- ### C6: clear then tail is empty

/-- C6: for an authenticated request whose body names an existing log
file, `POST /clear` answers 200, truncates the file to zero records, and a
subsequent tail of the same key returns the empty array. -/
theorem clear_then_tail (cookie : Option Str) (st : Store) (body : Obj)
    (hauth : checkAuth cookie = true)
    (hs : truthy (jget body "server") = true)
    (hr : truthy (jget body "resource") = true)
    (entries : List Obj) (hex : lookupKey st (clearKey body) = some entries) :
    (postClearRoute cookie st body).1 = Response.messageObj 200
  ∧ lookupKey (postClearRoute cookie st body).2 (clearKey body) = some []
  ∧ getLogsRoute cookie (postClearRoute cookie st body).2
      (some (clearKey body).1) (some (clearKey body).2) = Response.logsArr [] := by
  have hroute : postClearRoute cookie st body =
      (Response.messageObj 200, setKey st (clearKey body) []) := by
    rw [postClearRoute, if_pos hauth]
    simp [postClear, hs, hr, hex]
  rw [hroute]
  refine ⟨rfl, lookupKey_setKey_self _ _ _, ?_⟩
  rw [getLogsRoute, if_pos hauth]
  dsimp only
  have e1 : (clearKey body).1 = sanitizeName (jget body "server") := rfl
  have e2 : (clearKey body).2 = sanitizeName (jget body "resource") := rfl
  rw [e1, e2]
  have h1 : qTruthy (some (sanitizeName (jget body "server"))) = true :=
    qTruthy_of_ne_nil _ (sanitizeName_ne_nil _)
  have h2 : qTruthy (some (sanitizeName (jget body "resource"))) = true :=
    qTruthy_of_ne_nil _ (sanitizeName_ne_nil _)
  rw [getLogsHandler_tail _ _ _ h1 h2]
  have hq : qKey (some (sanitizeName (jget body "server")))
      (some (sanitizeName (jget body "resource"))) = clearKey body := by
    show (sanitizeName (JVal.str (sanitizeName (jget body "server"))),
        sanitizeName (JVal.str (sanitizeName (jget body "resource")))) = clearKey body
    rw [sanitizeName_idem, sanitizeName_idem]
    rfl
  rw [hq, lookupKey_setKey_self]
  rfl

theorem clear_then_tail_witness :
    (checkAuth (some viewerPin) = true
      ∧ truthy (jget [("server", JVal.str "a".toList), ("resource", JVal.str "b".toList)]
          "server") = true
      ∧ truthy (jget [("server", JVal.str "a".toList), ("resource", JVal.str "b".toList)]
          "resource") = true
      ∧ lookupKey [(("a".toList, "b".toList), [([] : Obj)])]
          (clearKey [("server", JVal.str "a".toList), ("resource", JVal.str "b".toList)]) =
            some [([] : Obj)])
  ∧ ((postClearRoute (some viewerPin) [(("a".toList, "b".toList), [([] : Obj)])]
        [("server", JVal.str "a".toList), ("resource", JVal.str "b".toList)]).1 =
          Response.messageObj 200
      ∧ lookupKey (postClearRoute (some viewerPin)
            [(("a".toList, "b".toList), [([] : Obj)])]
            [("server", JVal.str "a".toList), ("resource", JVal.str "b".toList)]).2
          (clearKey [("server", JVal.str "a".toList),
            ("resource", JVal.str "b".toList)]) = some []
      ∧ getLogsRoute (some viewerPin)
          (postClearRoute (some viewerPin) [(("a".toList, "b".toList), [([] : Obj)])]
            [("server", JVal.str "a".toList), ("resource", JVal.str "b".toList)]).2
          (some (clearKey [("server", JVal.str "a".toList),
            ("resource", JVal.str "b".toList)]).1)
          (some (clearKey [("server", JVal.str "a".toList),
            ("resource", JVal.str "b".toList)]).2) = Response.logsArr []) :=
  ⟨⟨by decide, by decide, by decide, by decide⟩,
    clear_then_tail (some viewerPin) [(("a".toList, "b".toList), [([] : Obj)])]
      [("server", JVal.str "a".toList), ("resource", JVal.str "b".toList)]
      (by decide) (by decide) (by decide) [([] : Obj)] (by decide)⟩

-- ### C1: the persisted timestamp

def c1CexBody : Obj :=
  [("resource", JVal.str "res".toList), ("type", JVal.str "console".toList),
   ("timestamp", JVal.str "evil".toList)]

def c1CexNow : Str := "2024-01-01T00:00:00.000Z".toList

/-- C1 counterexample: the client supplied `timestamp: "evil"`; appending
and tailing returns a last (only) record still carrying `"evil"`, not the
server-assigned timestamp: the spread `{timestamp: now, ...data}` lets a
client field override the server one, and `timestamp` is not among the
deleted keys. -/
theorem timestamp_client_override_cex :
    (postLog [] c1CexNow false c1CexBody).1 = Response.ok200
  ∧ getLogsRoute (some viewerPin) (postLog [] c1CexNow false c1CexBody).2
      (some "default_server".toList) (some "res".toList) =
        Response.logsArr [mkLogEntry c1CexNow (logDataOf c1CexBody)]
  ∧ jget (mkLogEntry c1CexNow (logDataOf c1CexBody)) "timestamp" =
      JVal.str "evil".toList
  ∧ JVal.str "evil".toList ≠ JVal.str c1CexNow := by decide

/-- C1 (amended): appending a record whose payload carries NO `timestamp`
field and then immediately tailing the written key yields a last element
equal to the record minus its `resource`/`server` routing fields plus the
server-assigned `timestamp`; when the payload does carry a `timestamp`,
the client value overrides the server one (see the counterexample). -/
theorem append_then_tail (st : Store) (now : Str) (body : Obj)
    (hres : truthy (actualResource body) = true)
    (hts : lookupKey body "timestamp" = none) :
    (postLog st now false body).1 = Response.ok200
  ∧ ∃ l e, getLogsRoute (some viewerPin) (postLog st now false body).2
        (some (postKey body).1) (some (postKey body).2) = Response.logsArr l
      ∧ l.getLast? = some e
      ∧ lookupKey e "timestamp" = some (JVal.str now)
      ∧ lookupKey e "resource" = none
      ∧ lookupKey e "server" = none
      ∧ ∀ k, k ≠ "timestamp" → k ≠ "resource" → k ≠ "server" →
          lookupKey e k = lookupKey body k := by
  have hpost : postLog st now false body =
      (Response.ok200,
        setKey st (postKey body)
          (((lookupKey st (postKey body)).getD []) ++ [mkLogEntry now (logDataOf body)])) := by
    simp [postLog, hres]
    rfl
  rw [hpost]
  refine ⟨rfl,
    last200 (((lookupKey st (postKey body)).getD []) ++ [mkLogEntry now (logDataOf body)]),
    mkLogEntry now (logDataOf body), ?_, last200_concat_getLast? _ _, ?_, ?_, ?_, ?_⟩
  · rw [getLogsRoute, if_pos (by decide)]
    dsimp only
    have e1 : (postKey body).1 = sanitizeName (jsOr (jget body "server") defaultServerName) :=
      rfl
    have e2 : (postKey body).2 = sanitizeName (actualResource body) := rfl
    rw [e1, e2]
    have h1 : qTruthy (some (sanitizeName (jsOr (jget body "server") defaultServerName))) =
        true := qTruthy_of_ne_nil _ (sanitizeName_ne_nil _)
    have h2 : qTruthy (some (sanitizeName (actualResource body))) = true :=
      qTruthy_of_ne_nil _ (sanitizeName_ne_nil _)
    rw [getLogsHandler_tail _ _ _ h1 h2]
    have hq : qKey (some (sanitizeName (jsOr (jget body "server") defaultServerName)))
        (some (sanitizeName (actualResource body))) = postKey body := by
      show (sanitizeName (JVal.str (sanitizeName (jsOr (jget body "server") defaultServerName))),
          sanitizeName (JVal.str (sanitizeName (actualResource body)))) = postKey body
      rw [sanitizeName_idem, sanitizeName_idem]
      rfl
    rw [hq, lookupKey_setKey_self, Option.getD_some]
  · apply mkLogEntry_timestamp
    rw [logDataOf_other body "timestamp" (by decide) (by decide)]
    exact hts
  · rw [mkLogEntry_lookup_ne _ _ _ (by decide)]
    exact logDataOf_resource body
  · rw [mkLogEntry_lookup_ne _ _ _ (by decide)]
    exact logDataOf_server body
  · intro k hk1 hk2 hk3
    rw [mkLogEntry_lookup_ne _ _ _ hk1, logDataOf_other body k hk2 hk3]

def c1WitBody : Obj :=
  [("resource", JVal.str "r2".toList), ("type", JVal.str "console".toList),
   ("data", JVal.str "hello".toList)]

theorem append_then_tail_witness :
    (truthy (actualResource c1WitBody) = true ∧ lookupKey c1WitBody "timestamp" = none)
  ∧ ((postLog [] "T2".toList false c1WitBody).1 = Response.ok200
      ∧ ∃ l e, getLogsRoute (some viewerPin) (postLog [] "T2".toList false c1WitBody).2
            (some (postKey c1WitBody).1) (some (postKey c1WitBody).2) = Response.logsArr l
          ∧ l.getLast? = some e
          ∧ lookupKey e "timestamp" = some (JVal.str "T2".toList)
          ∧ lookupKey e "resource" = none
          ∧ lookupKey e "server" = none
          ∧ ∀ k, k ≠ "timestamp" → k ≠ "resource" → k ≠ "server" →
              lookupKey e k = lookupKey c1WitBody k) :=
  ⟨⟨by decide, by decide⟩,
    append_then_tail [] "T2".toList c1WitBody (by decide) (by decide)⟩
